import Mathlib

/- Shallow embedding of the amc-manager torrent cleaner core:
   - src/database.py : the strike ledger (`update_strike`, `get_strikes`, `clear_strikes`)
   - src/config.py   : dynamic setting resolution (`get_setting`, `MAX_STRIKES`)
   - src/cleaner.py  : health classifier, removal executor and the per-torrent body of
     `run_cleaner_cycle`.
   Machine integers are modelled as `Int`; the float `t_time_active` (minutes elapsed)
   is modelled over `ℚ` with exact arithmetic.  Network mutations are modelled as an
   emitted effect trace; storage failures are modelled by an explicit failure flag. -/

/-- One row of the `torrent_strikes` SQLite table
    (`hash TEXT PRIMARY KEY, strikes INTEGER, last_checked TEXT, reason TEXT`,
    src/database.py line 42); the `hash` key is the association-list key. -/
structure LedgerRow where
  strikes : Int
  lastChecked : String
  reason : String
deriving DecidableEq, Repr

/-- The strike ledger: contents of the `torrent_strikes` table, keyed by torrent hash. -/
abbrev Ledger := List (String × LedgerRow)

/-- `SELECT ... FROM torrent_strikes WHERE hash=?` followed by `fetchone`:
    the first row whose key equals the hash. -/
def ledgerFind : Ledger → String → Option LedgerRow
  | [], _ => none
  | (k, row) :: rest, h => if k = h then some row else ledgerFind rest h

/-- `UPDATE torrent_strikes SET strikes=?, last_checked=?, reason=? WHERE hash=?`:
    replaces every row whose key equals the hash. -/
def ledgerUpdateRow (l : Ledger) (h : String) (row : LedgerRow) : Ledger :=
  l.map (fun p => if p.1 = h then (p.1, row) else p)

/-- `update_strike(torrent_hash, reason)` from src/database.py lines 83-102.
    `fail` models "any exception raised by the storage layer": the handler
    returns 0 (src/database.py lines 101-102).  On success it increments the
    existing row (overwriting timestamp and reason) or inserts a fresh row with
    count 1, and returns the resulting count. -/
def update_strike (fail : Bool) (l : Ledger) (ts torrentHash reason : String) : Ledger × Int :=
  if fail then (l, 0)
  else
    match ledgerFind l torrentHash with
    | some row =>
      (ledgerUpdateRow l torrentHash ⟨row.strikes + 1, ts, reason⟩, row.strikes + 1)
    | none =>
      (l ++ [(torrentHash, ⟨1, ts, reason⟩)], 1)

/-- `get_strikes(torrent_hash)` from src/database.py lines 104-114: the stored
    count, 0 when absent, and 0 on any storage failure. -/
def get_strikes (fail : Bool) (l : Ledger) (torrentHash : String) : Int :=
  if fail then 0
  else
    match ledgerFind l torrentHash with
    | some row => row.strikes
    | none => 0

/-- `clear_strikes(torrent_hash)` from src/database.py lines 116-124:
    `DELETE FROM torrent_strikes WHERE hash=?`. -/
def clear_strikes : Ledger → String → Ledger
  | [], _ => []
  | (k, row) :: rest, h => if k = h then clear_strikes rest h else (k, row) :: clear_strikes rest h

/-- A single ledger operation, for stating reachability invariants. -/
inductive LedgerOp where
  | upd (fail : Bool) (ts torrentHash reason : String)
  | clr (torrentHash : String)

/-- Apply one ledger operation to a ledger state. -/
def applyLedgerOp (l : Ledger) : LedgerOp → Ledger
  | .upd fail ts h r => (update_strike fail l ts h r).1
  | .clr h => clear_strikes l h

/-- Run a sequence of ledger operations starting from a given state. -/
def runLedgerOps (l : Ledger) (ops : List LedgerOp) : Ledger :=
  ops.foldl applyLedgerOp l

/-- Every row stored in the ledger has a strictly positive strike count. -/
def ledgerPositive (l : Ledger) : Prop :=
  ∀ p ∈ l, 0 < p.2.strikes

/- ===================== Configuration model (src/config.py) ===================== -/

/-- A Python value as stored in `raw_cfg`, covering the shapes `yaml.safe_load`
    produces: None, booleans, integers, strings, lists, mappings, dates, and
    floats — a finite float as its exact rational value, plus infinity and NaN
    markers.  List elements and mapping entries are kept as strings: only their
    emptiness and their `int()` behavior matter to the modelled settings. -/
inductive PyVal where
  | pynone
  | pybool (b : Bool)
  | pyint (n : Int)
  | pystr (s : String)
  | pylist (xs : List String)
  | pydict (xs : List (String × String))
  | pydate (y m d : Nat)
  | pyfloat (q : ℚ)
  | pyfloatInf (neg : Bool)
  | pyfloatNan
deriving DecidableEq, Repr

/-- Python truthiness of a modelled value (dates, infinities and NaN are
    truthy; 0.0 is falsy). -/
def pyTruthy : PyVal → Bool
  | .pynone => false
  | .pybool b => b
  | .pyint n => n != 0
  | .pystr s => s != ""
  | .pylist xs => !xs.isEmpty
  | .pydict xs => !xs.isEmpty
  | .pydate _ _ _ => true
  | .pyfloat q => decide (q ≠ 0)
  | .pyfloatInf _ => true
  | .pyfloatNan => true

/-- The value shapes on which Python's `int(val)` raises an exception that
    `get_setting`'s `except ValueError` does not catch: lists, mappings and
    dates raise `TypeError`, infinite floats raise `OverflowError`. -/
def PyVal.intCastRaises : PyVal → Bool
  | .pylist _ => true
  | .pydict _ => true
  | .pydate _ _ _ => true
  | .pyfloatInf _ => true
  | _ => false

/-- Result of Python `int(val)`: an integer, a `ValueError` (non-numeric string
    or NaN), a `TypeError` (list, mapping, date, or None argument), or an
    `OverflowError` (infinite float). -/
inductive IntCastResult where
  | ok (n : Int)
  | valueError
  | typeError
  | overflowError
deriving DecidableEq, Repr

/-- An exception that escapes `get_setting`: only `ValueError` is caught there,
    so a `TypeError` or `OverflowError` from `int(val)` propagates. -/
inductive PyExn where
  | typeError
  | overflowError
deriving DecidableEq, Repr

/-- Truncation toward zero, as Python's `int()` applies to a finite float. -/
def pyTrunc (q : ℚ) : Int :=
  if 0 ≤ q then ⌊q⌋ else ⌈q⌉

/-- Python `int(val)` on the modelled values: bools are the integers 0 and 1,
    strings are parsed after stripping whitespace (`ValueError` when not
    numeric), finite floats truncate toward zero, NaN raises `ValueError`,
    infinities raise `OverflowError`, and lists, mappings, dates and `None`
    raise `TypeError`. -/
def pyIntCast : PyVal → IntCastResult
  | .pynone => .typeError
  | .pybool b => .ok (if b then 1 else 0)
  | .pyint n => .ok n
  | .pystr s =>
    match s.trim.toInt? with
    | some n => .ok n
    | none => .valueError
  | .pylist _ => .typeError
  | .pydict _ => .typeError
  | .pydate _ _ _ => .typeError
  | .pyfloat q => .ok (pyTrunc q)
  | .pyfloatInf _ => .overflowError
  | .pyfloatNan => .valueError

/-- The `raw_cfg` dictionary parsed from config.yml. -/
abbrev RawCfg := List (String × PyVal)

/-- Python `raw_cfg.get(key, default)`. -/
def RawCfg.getD (c : RawCfg) (k : String) (d : PyVal) : PyVal :=
  match c with
  | [] => d
  | (k2, v) :: rest => if k2 = k then v else RawCfg.getD rest k d

/-- `ConfigManager.get_setting(enable_key, val_key, int)` from src/config.py
    lines 102-138, integer branch.  `Except.error` models an uncaught
    exception (the code catches only `ValueError` around `int(val)`, so a
    `TypeError` or `OverflowError` propagates); `Except.ok none` models the
    Python return value `False`; `Except.ok (some n)` the returned integer. -/
def getSettingInt (c : RawCfg) (enableKey valKey : String) : Except PyExn (Option Int) :=
  if !(pyTruthy (c.getD enableKey (.pybool false))) then .ok none
  else
    let val := c.getD valKey .pynone
    if val = PyVal.pynone ∨ val = PyVal.pystr "" then .ok none
    else
      match pyIntCast val with
      | .ok n => if n ≤ 0 then .ok none else .ok (some n)
      | .valueError => .ok none
      | .typeError => .error .typeError
      | .overflowError => .error .overflowError

/-- `cfg.MAX_STRIKES` from src/config.py line 202:
    `get_setting('enable_max_strikes', 'max_strikes', int) or 3`.
    The Python `or` replaces a falsy result (`False`, or the unreachable 0)
    with 3; an uncaught exception propagates. -/
def MAX_STRIKES (c : RawCfg) : Except PyExn Int :=
  match getSettingInt c "enable_max_strikes" "max_strikes" with
  | .error e => .error e
  | .ok none => .ok 3
  | .ok (some n) => .ok (if n = 0 then 3 else n)

/- ===================== Cleaner data model (src/cleaner.py) ===================== -/

/-- Snapshot of every `cfg.*` value read by the cleaner cycle.  The source
    re-reads the dynamic config at each access; one cycle is modelled against a
    single consistent snapshot. -/
structure CleanerCfg where
  dryRun : Bool
  rmMetaMissing : Bool
  rmStalled : Bool
  rmSlow : Bool
  rmFailed : Bool
  rmOrphans : Bool
  timeoutMetadata : Int
  timeoutStalled : Int
  minSpeedBytes : Int
  maxStrikes : Int
  protectedTags : List String
  privateTags : List String
  obsoleteTag : String
  sonarrUrl : String
  sonarrKey : String
  radarrUrl : String
  radarrKey : String
  lidarrUrl : String
  lidarrKey : String
deriving Repr

/-- A torrent as returned by `torrents_info(filter='downloading')`:
    the fields of `tor` read by the cycle body (src/cleaner.py lines 116-122). -/
structure Torrent where
  hash : String
  name : String
  state : String
  addedOn : Int
  dlspeed : Int
  tags : String
deriving DecidableEq, Repr

/-- The three queue maps built by `get_arr_queue` (lowercased download-id →
    queue-entry id; the title is irrelevant to control flow). -/
structure QueueMaps where
  sonarr : List (String × Int)
  radarr : List (String × Int)
  lidarr : List (String × Int)
deriving Repr

/-- The owning content-manager of a torrent. -/
inductive Owner where
  | sonarr
  | radarr
  | lidarr
deriving DecidableEq, Repr

/-- The `app_name` string attached to each owner. -/
def Owner.appName : Owner → String
  | .sonarr => "Sonarr"
  | .radarr => "Radarr"
  | .lidarr => "Lidarr"

/-- Python `str.lower()` restricted to ASCII, as applied to torrent hashes. -/
def pyLower (s : String) : String :=
  String.mk (s.toList.map Char.toLower)

/-- Helper for `str.split(',')`: accumulate the current piece until a comma. -/
def splitCommaAux : List Char → List Char → List String
  | [], acc => [String.mk acc.reverse]
  | ch :: rest, acc =>
    if ch = ',' then String.mk acc.reverse :: splitCommaAux rest []
    else splitCommaAux rest (ch :: acc)

/-- Python `s.split(',')`: split on every comma, keeping whitespace and empty
    pieces. -/
def splitComma (s : String) : List String :=
  splitCommaAux s.toList []

/-- `tor.tags.split(',') if tor.tags else []` (src/cleaner.py line 122). -/
def pyTags (s : String) : List String :=
  if s = "" then [] else splitComma s

/-- `any(tag in t_tags for tag in cfgTags)` (src/cleaner.py lines 125 and 128):
    exact string membership of a configured tag among the raw comma-split
    pieces. -/
def hasTagFrom (cfgTags : List String) (rawTags : String) : Bool :=
  cfgTags.any (fun tag => (pyTags rawTags).contains tag)

/-- `t_time_active = (datetime.now().timestamp() - t_added_on) / 60`
    (src/cleaner.py line 121), in exact arithmetic. -/
def tTimeActive (now addedOn : Int) : ℚ :=
  ((now - addedOn : Int) : ℚ) / 60

/-- The health classifier: the `strike_reason` if/elif chain of
    src/cleaner.py lines 144-152, evaluated on one torrent's state, elapsed
    minutes and download speed. -/
def strikeReason (c : CleanerCfg) (state : String) (timeActive : ℚ) (dlspeed : Int) : Option String :=
  if c.rmMetaMissing ∧ state = "metaDL" ∧ timeActive > (c.timeoutMetadata : ℚ) then
    some "Stuck Downloading Metadata"
  else if c.rmStalled ∧ state = "stalledDL" ∧ timeActive > (c.timeoutStalled : ℚ) then
    some "Stalled (No Seeds)"
  else if c.rmSlow ∧ state = "downloading" ∧ timeActive > 5 ∧ dlspeed < c.minSpeedBytes then
    some "Downloading too slowly"
  else if c.rmFailed ∧ (state = "error" ∨ state = "missingFiles") then
    some "Critical Error State"
  else
    none

/-- An externally visible action of the removal executor: either a dry-run log
    line or a mutating call to a collaborator. -/
inductive Effect where
  | logDryRunArr (appName : String) (queueId : Int) (reason : String)
  | deleteQueueEntry (appName url apiKey : String) (queueId : Int)
      (removeFromClient blocklist : Bool) (apiVersion : String)
  | logDryRunTag (torrentHash : String)
  | addTag (tag torrentHash : String)
  | logDryRunDelete (torrentHash : String)
  | deleteTransfer (torrentHash : String) (deleteFiles : Bool)
deriving DecidableEq, Repr

/-- Whether the effect mutates a collaborator (network mutation), as opposed to
    a dry-run log line. -/
def Effect.isMutating : Effect → Bool
  | .deleteQueueEntry .. => true
  | .addTag .. => true
  | .deleteTransfer .. => true
  | _ => false

/-- `remove_via_arr(app_name, url, api_key, queue_id, reason)` from
    src/cleaner.py lines 63-75: dry-run logs, otherwise one DELETE
    `{url}/api/{v1|v3}/queue/{queue_id}?removeFromClient=true&blocklist=true`
    with the given API key. -/
def remove_via_arr (c : CleanerCfg) (appName url apiKey : String) (queueId : Int)
    (reason : String) : List Effect :=
  if c.dryRun then [Effect.logDryRunArr appName queueId reason]
  else
    [Effect.deleteQueueEntry appName url apiKey queueId true true
      (if appName = "Lidarr" then "v1" else "v3")]

/-- `remove_via_qbit(torrent_hash, is_private)` from src/cleaner.py lines
    77-97: a private orphan is tagged with the obsolete tag, a non-private
    orphan is deleted together with its files; dry-run logs instead. -/
def remove_via_qbit (c : CleanerCfg) (torrentHash : String) (isPrivate : Bool) : List Effect :=
  if isPrivate then
    if c.dryRun then [Effect.logDryRunTag torrentHash]
    else [Effect.addTag c.obsoleteTag torrentHash]
  else
    if c.dryRun then [Effect.logDryRunDelete torrentHash]
    else [Effect.deleteTransfer torrentHash true]

/-- Lookup of a lowercased hash in one manager's queue map. -/
def qlookup : List (String × Int) → String → Option Int
  | [], _ => none
  | (k, v) :: rest, h => if k = h then some v else qlookup rest h

/-- Ownership resolution of src/cleaner.py lines 131-138: the Sonarr map is
    checked first, then Radarr, then Lidarr. -/
def findOwner (qm : QueueMaps) (h : String) : Option (Owner × Int) :=
  match qlookup qm.sonarr h with
  | some qid => some (Owner.sonarr, qid)
  | none =>
    match qlookup qm.radarr h with
    | some qid => some (Owner.radarr, qid)
    | none =>
      match qlookup qm.lidarr h with
      | some qid => some (Owner.lidarr, qid)
      | none => none

/-- The removal dispatch of src/cleaner.py lines 160-165: an owned torrent goes
    through `remove_via_arr` with the URL and API key selected by
    `"Sonarr" → Sonarr, else → Radarr` (the source's exact selection, including
    its treatment of Lidarr), an orphan goes through `remove_via_qbit` when
    orphan removal is enabled. -/
def dispatchRemoval (c : CleanerCfg) (ownerInfo : Option (Owner × Int))
    (torrentHash : String) (isPrivate : Bool) (reason : String) : List Effect :=
  match ownerInfo with
  | some (app, qid) =>
    remove_via_arr c app.appName
      (if app = Owner.sonarr then c.sonarrUrl else c.radarrUrl)
      (if app = Owner.sonarr then c.sonarrKey else c.radarrKey)
      qid reason
  | none => if c.rmOrphans then remove_via_qbit c torrentHash isPrivate else []

/-- One observable step of the cycle body: a ledger write (strike or clear) or
    an executor effect, in program order. -/
inductive Event where
  | strike (torrentHash reason : String) (newCount : Int)
  | clear (torrentHash : String)
  | exec (e : Effect)
deriving DecidableEq, Repr

/-- Whether the event is a mutating collaborator call. -/
def eventMutating : Event → Bool
  | .exec e => e.isMutating
  | _ => false

/-- Whether the event is any executor action (mutating or dry-run log). -/
def eventIsExec : Event → Bool
  | .exec _ => true
  | _ => false

/-- The ledger-bookkeeping subsequence of an event trace. -/
def ledgerEvents (evs : List Event) : List Event :=
  evs.filter (fun e => !eventIsExec e)

/-- The per-torrent body of `run_cleaner_cycle` (src/cleaner.py lines 116-168):
    protected-tag skip, ownership resolution, orphan gating, health
    classification, strike bookkeeping and removal dispatch at the threshold,
    recovery clearing otherwise.  `failUpd`/`failGet` model storage failures of
    the two ledger reads/writes; `ts` is the wall-clock ISO timestamp; the
    result is the new ledger plus the ordered event trace. -/
def processTorrent (c : CleanerCfg) (qm : QueueMaps) (now : Int) (failUpd failGet : Bool)
    (ts : String) (l : Ledger) (tor : Torrent) : Ledger × List Event :=
  let tHash := pyLower tor.hash
  if hasTagFrom c.protectedTags tor.tags then (l, [])
  else
    let isPrivate := hasTagFrom c.privateTags tor.tags
    let ownerInfo := findOwner qm tHash
    if ownerInfo = none ∧ c.rmOrphans = false then (l, [])
    else
      match strikeReason c tor.state (tTimeActive now tor.addedOn) tor.dlspeed with
      | some reason =>
        let p := update_strike failUpd l ts tHash reason
        if p.2 ≥ c.maxStrikes then
          (clear_strikes p.1 tHash,
            [Event.strike tHash reason p.2, Event.clear tHash]
              ++ (dispatchRemoval c ownerInfo tHash isPrivate reason).map Event.exec)
        else
          (p.1, [Event.strike tHash reason p.2])
      | none =>
        if get_strikes failGet l tHash > 0 then (clear_strikes l tHash, [Event.clear tHash])
        else (l, [])

/-- The `for tor in torrents` loop of `run_cleaner_cycle`, threading the ledger
    through the per-torrent body and concatenating the event traces. -/
def runCycle (c : CleanerCfg) (qm : QueueMaps) (now : Int) (failUpd failGet : Bool)
    (ts : String) : Ledger → List Torrent → Ledger × List Event
  | l, [] => (l, [])
  | l, tor :: rest =>
    let p := processTorrent c qm now failUpd failGet ts l tor
    let q := runCycle c qm now failUpd failGet ts p.1 rest
    (q.1, p.2 ++ q.2)

/-- The configuration snapshot with the dry-run flag replaced. -/
def setDryRun (c : CleanerCfg) (b : Bool) : CleanerCfg :=
  { c with dryRun := b }

/- ===================== Concrete instances used in closed theorems ===================== -/

/-- A live-mode configuration snapshot with max strikes 1, matching the source
    defaults for tags and timeouts, with pairwise distinct manager endpoints. -/
def cfgLive : CleanerCfg :=
  { dryRun := false, rmMetaMissing := true, rmStalled := true, rmSlow := true,
    rmFailed := true, rmOrphans := false, timeoutMetadata := 15, timeoutStalled := 15,
    minSpeedBytes := 102400, maxStrikes := 1,
    protectedTags := ["protected", "Keep"], privateTags := ["private"],
    obsoleteTag := "amc_obsolete",
    sonarrUrl := "http://sonarr:8989", sonarrKey := "sonarr-key",
    radarrUrl := "http://radarr:7878", radarrKey := "radarr-key",
    lidarrUrl := "http://lidarr:8686", lidarrKey := "lidarr-key" }

/-- Queue maps where only Lidarr owns the torrent `aaaa` (queue-entry id 7). -/
def qmLidarrOnly : QueueMaps := { sonarr := [], radarr := [], lidarr := [("aaaa", 7)] }

/-- Empty queue maps: every torrent is an orphan. -/
def qmEmpty : QueueMaps := { sonarr := [], radarr := [], lidarr := [] }

/-- A stalled torrent, 20 minutes old at observation time 1200s, no tags. -/
def torStalled : Torrent :=
  { hash := "aaaa", name := "Some.Release", state := "stalledDL", addedOn := 0,
    dlspeed := 0, tags := "" }

/-- The live configuration with orphan removal enabled. -/
def cfgOrphan : CleanerCfg := { cfgLive with rmOrphans := true }

/-- A stalled private-tracker orphan. -/
def torPrivate : Torrent := { torStalled with hash := "bbbb", tags := "private" }

/-- A dry-run configuration with max strikes 3, orphan removal on, protected
    tag list `["keep"]`. -/
def cfgTagSplit : CleanerCfg :=
  { cfgLive with dryRun := true, maxStrikes := 3, rmOrphans := true, protectedTags := ["keep"] }

/-- A stalled orphan whose raw tag string carries a space after the comma. -/
def torSpacedTag : Torrent := { torStalled with hash := "cccc", tags := "movies, keep" }

/-- The same torrent with no space after the comma. -/
def torTightTag : Torrent := { torSpacedTag with tags := "movies,keep" }

/-- A raw config enabling `max_strikes` but giving it a YAML list value. -/
def rawCfgListMax : RawCfg :=
  [("enable_max_strikes", .pybool true), ("max_strikes", .pylist ["3"])]

/-- A raw config enabling `max_strikes` but giving it a YAML mapping value. -/
def rawCfgDictMax : RawCfg :=
  [("enable_max_strikes", .pybool true), ("max_strikes", .pydict [("a", "b")])]

/-- A raw config enabling `max_strikes` but giving it the YAML float `.inf`. -/
def rawCfgInfMax : RawCfg :=
  [("enable_max_strikes", .pybool true), ("max_strikes", .pyfloatInf false)]

/-- A raw config with `max_strikes` entirely absent. -/
def rawCfgEmptyMax : RawCfg := []

/- ===================== Helper lemmas: the strike ledger ===================== -/

lemma ledgerFind_clear_strikes (l : Ledger) (h : String) :
    ledgerFind (clear_strikes l h) h = none := by
  induction l with
  | nil => rfl
  | cons p rest ih =>
    obtain ⟨k, row⟩ := p
    by_cases hk : k = h <;> simp [clear_strikes, ledgerFind, hk, ih]

lemma clear_strikes_of_find_none (l : Ledger) (h : String) :
    ledgerFind l h = none → clear_strikes l h = l := by
  induction l with
  | nil => intro _; rfl
  | cons p rest ih =>
    obtain ⟨k, row⟩ := p
    intro hfind
    by_cases hk : k = h
    · simp [ledgerFind, hk] at hfind
    · simp [ledgerFind, hk] at hfind
      simp [clear_strikes, hk, ih hfind]

lemma mem_clear_strikes (l : Ledger) (h : String) (p : String × LedgerRow) :
    p ∈ clear_strikes l h → p ∈ l := by
  induction l with
  | nil => intro hp; exact absurd hp (List.not_mem_nil p)
  | cons q rest ih =>
    obtain ⟨k, row⟩ := q
    by_cases hk : k = h
    · intro hp
      simp only [clear_strikes, if_pos hk] at hp
      exact List.mem_cons_of_mem _ (ih hp)
    · intro hp
      simp only [clear_strikes, if_neg hk, List.mem_cons] at hp
      rcases hp with hp | hp
      · exact hp ▸ List.mem_cons_self _ _
      · exact List.mem_cons_of_mem _ (ih hp)

lemma ledgerFind_updateRow (l : Ledger) (h : String) (newRow : LedgerRow) :
    ledgerFind (ledgerUpdateRow l h newRow) h = (ledgerFind l h).map (fun _ => newRow) := by
  induction l with
  | nil => rfl
  | cons p rest ih =>
    obtain ⟨k, row⟩ := p
    simp only [ledgerUpdateRow, List.map_cons] at ih ⊢
    by_cases hk : k = h
    · subst hk
      rw [if_pos rfl]
      simp [ledgerFind]
    · rw [if_neg hk]
      simp [ledgerFind, hk, ih]

lemma ledgerFind_mem (l : Ledger) (h : String) (row : LedgerRow) :
    ledgerFind l h = some row → (h, row) ∈ l := by
  induction l with
  | nil => intro hfind; exact absurd hfind (by simp [ledgerFind])
  | cons p rest ih =>
    obtain ⟨k, r⟩ := p
    intro hfind
    by_cases hk : k = h
    · simp [ledgerFind, hk] at hfind
      subst hk hfind
      exact List.mem_cons_self _ _
    · simp [ledgerFind, hk] at hfind
      exact List.mem_cons_of_mem _ (ih hfind)

lemma ledgerPositive_applyLedgerOp (l : Ledger) (op : LedgerOp) :
    ledgerPositive l → ledgerPositive (applyLedgerOp l op) := by
  intro hpos
  cases op with
  | clr h =>
    intro p hp
    exact hpos p (mem_clear_strikes l h p hp)
  | upd fail ts h r =>
    by_cases hf : fail = true
    · simpa [applyLedgerOp, update_strike, hf] using hpos
    · simp only [Bool.not_eq_true] at hf
      cases hfind : ledgerFind l h with
      | none =>
        intro p hp
        simp only [applyLedgerOp, update_strike, hf, hfind, Bool.false_eq_true,
          if_false, List.mem_append, List.mem_singleton] at hp
        rcases hp with hp | hp
        · exact hpos p hp
        · subst hp; norm_num
      | some row =>
        have hrow : 0 < row.strikes := hpos _ (ledgerFind_mem l h row hfind)
        intro p hp
        simp only [applyLedgerOp, update_strike, hf, hfind, Bool.false_eq_true,
          if_false, ledgerUpdateRow, List.mem_map] at hp
        obtain ⟨q, hq, hpq⟩ := hp
        by_cases hqh : q.1 = h
        · simp only [hqh, if_pos rfl] at hpq
          subst hpq
          simpa using by omega
        · simp only [hqh, if_neg hqh] at hpq
          subst hpq
          exact hpos q hq

lemma ledgerPositive_runLedgerOps (l : Ledger) (ops : List LedgerOp) :
    ledgerPositive l → ledgerPositive (runLedgerOps l ops) := by
  induction ops generalizing l with
  | nil => exact fun hp => hp
  | cons op rest ih =>
    intro hp
    exact ih _ (ledgerPositive_applyLedgerOp l op hp)

/-- C4: the strike ledger keeps a row only while its count is positive:
    `update_strike` inserts count 1 when the hash is absent, otherwise bumps
    the stored count by exactly 1 while overwriting the timestamp and reason,
    and returns the resulting count; `clear_strikes` deletes the row and is a
    no-op when the row is absent; consequently every ledger state reachable
    from the empty ledger contains only rows with strictly positive counts. -/
theorem strike_ledger_invariant :
    (∀ (l : Ledger) (ts h r : String), ledgerFind l h = none →
      update_strike false l ts h r = (l ++ [(h, ⟨1, ts, r⟩)], 1))
    ∧ (∀ (l : Ledger) (ts h r : String) (row : LedgerRow), ledgerFind l h = some row →
      (update_strike false l ts h r).2 = row.strikes + 1
        ∧ ledgerFind (update_strike false l ts h r).1 h = some ⟨row.strikes + 1, ts, r⟩)
    ∧ (∀ (l : Ledger) (h : String), ledgerFind (clear_strikes l h) h = none)
    ∧ (∀ (l : Ledger) (h : String), ledgerFind l h = none → clear_strikes l h = l)
    ∧ (∀ ops : List LedgerOp, ledgerPositive (runLedgerOps [] ops)) := by
  refine ⟨?_, ?_, ?_, ?_, ?_⟩
  · intro l ts h r hfind
    simp [update_strike, hfind]
  · intro l ts h r row hfind
    constructor
    · simp [update_strike, hfind]
    · simp [update_strike, hfind, ledgerFind_updateRow]
  · exact ledgerFind_clear_strikes
  · exact clear_strikes_of_find_none
  · intro ops
    exact ledgerPositive_runLedgerOps [] ops (by intro p hp; exact absurd hp (List.not_mem_nil p))

/-- Witness for C4 at concrete inputs: inserting into the empty ledger yields
    the single row with count 1, and clearing that row removes it. -/
theorem strike_ledger_invariant_witness :
    update_strike false [] "t0" "h" "why" = ([("h", ⟨1, "t0", "why"⟩)], 1)
      ∧ ledgerFind (clear_strikes [("h", ⟨1, "t0", "why"⟩)] "h") "h" = none :=
  ⟨strike_ledger_invariant.1 [] "t0" "h" "why" rfl,
   strike_ledger_invariant.2.2.1 [("h", ⟨1, "t0", "why"⟩)] "h"⟩

/- ===================== C9: effective MAX_STRIKES ===================== -/

lemma getSettingInt_pos (c : RawCfg) (ek vk : String) :
    (c.getD vk PyVal.pynone).intCastRaises = false →
      getSettingInt c ek vk = Except.ok none
        ∨ ∃ n : Int, 0 < n ∧ getSettingInt c ek vk = Except.ok (some n) := by
  intro hraise
  unfold getSettingInt
  cases hen : pyTruthy (RawCfg.getD c ek (.pybool false)) with
  | false => left; simp [hen]
  | true =>
    simp only [hen, Bool.not_true, Bool.false_eq_true, if_false]
    cases hval : RawCfg.getD c vk PyVal.pynone with
    | pynone => left; simp
    | pybool b =>
      cases b with
      | false => left; simp [pyIntCast]
      | true => right; exact ⟨1, by norm_num, by simp [pyIntCast]⟩
    | pyint n =>
      by_cases hn : n ≤ 0
      · left; simp [pyIntCast, hn]
      · right; exact ⟨n, by omega, by simp [pyIntCast, hn]⟩
    | pystr s =>
      by_cases hs : s = ""
      · left; simp [hs]
      · cases hint : s.trim.toInt? with
        | none => left; simp [pyIntCast, hs, hint]
        | some n =>
          by_cases hn : n ≤ 0
          · left; simp [pyIntCast, hs, hint, hn]
          · right; exact ⟨n, by omega, by simp [pyIntCast, hs, hint, hn]⟩
    | pylist xs => rw [hval] at hraise; simp [PyVal.intCastRaises] at hraise
    | pydict xs => rw [hval] at hraise; simp [PyVal.intCastRaises] at hraise
    | pydate y m d => rw [hval] at hraise; simp [PyVal.intCastRaises] at hraise
    | pyfloat q =>
      by_cases hn : pyTrunc q ≤ 0
      · left; simp [pyIntCast, hn]
      · right; exact ⟨pyTrunc q, by omega, by simp [pyIntCast, hn]⟩
    | pyfloatInf neg => rw [hval] at hraise; simp [PyVal.intCastRaises] at hraise
    | pyfloatNan => left; simp [pyIntCast]

/-- C9 counterexample: with `enable_max_strikes: true` and a YAML list value
    for `max_strikes`, the accessor propagates an uncaught `TypeError` (the
    source catches only `ValueError` around `int(val)`), so this non-integer
    configured value is not replaced by the default 3 and the orchestrator
    receives no value at all; a YAML mapping raises the same way, and the
    float `.inf` propagates an uncaught `OverflowError`. -/
theorem max_strikes_list_value_not_defaulted :
    MAX_STRIKES rawCfgListMax = Except.error PyExn.typeError
      ∧ MAX_STRIKES rawCfgListMax ≠ Except.ok 3
      ∧ MAX_STRIKES rawCfgDictMax = Except.error PyExn.typeError
      ∧ MAX_STRIKES rawCfgInfMax = Except.error PyExn.overflowError := by
  refine ⟨rfl, ?_, rfl, rfl⟩
  intro hcontra
  rw [show MAX_STRIKES rawCfgListMax = Except.error PyExn.typeError from rfl] at hcontra
  exact absurd hcontra (by simp)

/-- C9 amended: for every configuration whose `max_strikes` value is not one
    of the shapes on which `int()` raises an uncaught exception (a list,
    mapping, or date raises `TypeError`; an infinite float raises
    `OverflowError`), the effective maximum-strikes value is a positive
    integer — missing, disabled, boolean-false, NaN, non-numeric-string, or
    non-positive values fall back to the default 3, boolean true is the
    integer 1, and a finite float truncates — so the threshold test can never
    be satisfied by the fail-open strike count 0.  The excluded shapes raise
    instead of defaulting: see the counterexample. -/
theorem max_strikes_positive_unless_raising :
    ∀ c : RawCfg, (c.getD "max_strikes" PyVal.pynone).intCastRaises = false →
      ∃ n : Int, MAX_STRIKES c = Except.ok n ∧ 0 < n ∧ ¬((0 : Int) ≥ n) := by
  intro c hraise
  rcases getSettingInt_pos c "enable_max_strikes" "max_strikes" hraise with h | ⟨n, hn, h⟩
  · exact ⟨3, by simp [MAX_STRIKES, h], by norm_num, by norm_num⟩
  · have hne : n ≠ 0 := by omega
    exact ⟨n, by simp [MAX_STRIKES, h, hne], hn, by omega⟩

/-- Witness for C9 (amended) at the empty configuration: the effective value
    is the positive default 3. -/
theorem max_strikes_positive_unless_raising_witness :
    ∃ n : Int, MAX_STRIKES rawCfgEmptyMax = Except.ok n ∧ 0 < n ∧ ¬((0 : Int) ≥ n) :=
  max_strikes_positive_unless_raising rawCfgEmptyMax rfl

/- ===================== C3: health classifier order and strictness ===================== -/

/-- C3: the classifier checks metadata-missing, stalled, slow, failed in that
    order with first match wins, each gated on its enable flag, with strict
    timeout comparisons: in `metaDL` state, elapsed minutes at or below the
    metadata timeout yield no reason (whatever the flags), elapsed strictly
    above with the rule enabled yields "Stuck Downloading Metadata", and a
    disabled rule yields nothing; in `downloading` state the slow reason is
    produced exactly when the rule is enabled, elapsed exceeds the fixed
    5-minute grace period, and the rate is strictly below the minimum speed;
    enabled stalled and failed rules fire on their states likewise. -/
theorem health_classifier_order_and_strictness :
    (∀ (c : CleanerCfg) (ta : ℚ) (sp : Int),
        ta ≤ (c.timeoutMetadata : ℚ) → strikeReason c "metaDL" ta sp = none)
    ∧ (∀ (c : CleanerCfg) (ta : ℚ) (sp : Int), c.rmMetaMissing = true →
        (c.timeoutMetadata : ℚ) < ta →
        strikeReason c "metaDL" ta sp = some "Stuck Downloading Metadata")
    ∧ (∀ (c : CleanerCfg) (ta : ℚ) (sp : Int), c.rmMetaMissing = false →
        strikeReason c "metaDL" ta sp = none)
    ∧ (∀ (c : CleanerCfg) (ta : ℚ) (sp : Int),
        strikeReason c "downloading" ta sp = some "Downloading too slowly"
          ↔ c.rmSlow = true ∧ (5 : ℚ) < ta ∧ sp < c.minSpeedBytes)
    ∧ (∀ (c : CleanerCfg) (ta : ℚ) (sp : Int), c.rmStalled = true →
        (c.timeoutStalled : ℚ) < ta →
        strikeReason c "stalledDL" ta sp = some "Stalled (No Seeds)")
    ∧ (∀ (c : CleanerCfg) (ta : ℚ) (sp : Int) (st : String), c.rmFailed = true →
        st = "error" ∨ st = "missingFiles" →
        strikeReason c st ta sp = some "Critical Error State") := by
  refine ⟨?_, ?_, ?_, ?_, ?_, ?_⟩
  · intro c ta sp hta
    have hns : ¬ (ta > (c.timeoutMetadata : ℚ)) := not_lt.mpr hta
    simp [strikeReason, hns]
  · intro c ta sp hflag hta
    simp [strikeReason, hflag, hta]
  · intro c ta sp hflag
    simp [strikeReason, hflag]
  · intro c ta sp
    by_cases h1 : c.rmSlow = true
    · by_cases h2 : (5 : ℚ) < ta
      · by_cases h3 : sp < c.minSpeedBytes
        · simp [strikeReason, h1, h2, h3]
        · simp [strikeReason, h1, h2, h3]
      · simp [strikeReason, h1, h2]
    · simp [strikeReason, h1]
  · intro c ta sp hflag hta
    simp [strikeReason, hflag, hta]
  · intro c ta sp st hflag hst
    rcases hst with hst | hst <;> subst hst <;> simp [strikeReason, hflag]

/-- Witness for C3 at the concrete configuration: in `metaDL` state, elapsed
    exactly at the 15-minute timeout yields no reason, one minute above yields
    the metadata reason, and a slow enabled download past the grace period
    yields the slow reason. -/
theorem health_classifier_order_and_strictness_witness :
    strikeReason cfgLive "metaDL" 15 0 = none
      ∧ strikeReason cfgLive "metaDL" 16 0 = some "Stuck Downloading Metadata"
      ∧ strikeReason cfgLive "downloading" 20 0 = some "Downloading too slowly" :=
  ⟨health_classifier_order_and_strictness.1 cfgLive 15 0 (by norm_num [cfgLive]),
   health_classifier_order_and_strictness.2.1 cfgLive 16 0 rfl (by norm_num [cfgLive]),
   (health_classifier_order_and_strictness.2.2.2.1 cfgLive 20 0).mpr
     ⟨rfl, by norm_num, by norm_num [cfgLive]⟩⟩

/- ===================== Helper lemmas: the removal executor ===================== -/

lemma remove_via_arr_singleton (c : CleanerCfg) (a u k : String) (q : Int) (r : String) :
    ∃ eff, remove_via_arr c a u k q r = [eff] := by
  unfold remove_via_arr
  by_cases hd : c.dryRun = true
  · exact ⟨_, by rw [if_pos hd]⟩
  · exact ⟨_, by rw [if_neg hd]⟩

lemma remove_via_qbit_singleton (c : CleanerCfg) (h : String) (ip : Bool) :
    ∃ eff, remove_via_qbit c h ip = [eff] := by
  unfold remove_via_qbit
  by_cases hp : ip = true
  · by_cases hd : c.dryRun = true
    · exact ⟨_, by rw [if_pos hp, if_pos hd]⟩
    · exact ⟨_, by rw [if_pos hp, if_neg hd]⟩
  · by_cases hd : c.dryRun = true
    · exact ⟨_, by rw [if_neg hp, if_pos hd]⟩
    · exact ⟨_, by rw [if_neg hp, if_neg hd]⟩

lemma dispatchRemoval_singleton (c : CleanerCfg) (oi : Option (Owner × Int)) (h : String)
    (ip : Bool) (r : String) :
    ¬(oi = none ∧ c.rmOrphans = false) → ∃ eff, dispatchRemoval c oi h ip r = [eff] := by
  intro hskip
  cases oi with
  | some pr =>
    obtain ⟨app, qid⟩ := pr
    exact remove_via_arr_singleton c app.appName
      (if app = Owner.sonarr then c.sonarrUrl else c.radarrUrl)
      (if app = Owner.sonarr then c.sonarrKey else c.radarrKey) qid r
  | none =>
    have horph : c.rmOrphans = true := by
      cases horl : c.rmOrphans
      · exact absurd ⟨rfl, horl⟩ hskip
      · rfl
    simpa [dispatchRemoval, horph] using remove_via_qbit_singleton c h ip

/- ===================== C2: threshold clears the ledger then dispatches once ===================== -/

/-- C2: for a transfer that is classified unhealthy and whose recorded count
    reaches the configured maximum (and that was not skipped as protected or as
    a disabled orphan), the cycle body emits exactly the trace
    strike–clear–one-executor-call, so the ledger row is deleted before the
    removal call is issued and exactly one removal action is dispatched; the
    final ledger holds no entry for the hash, independent of the removal
    call's outcome, so a failed removal cannot re-insert it. -/
theorem threshold_single_removal_after_clear :
    ∀ (c : CleanerCfg) (qm : QueueMaps) (now : Int) (fU fG : Bool) (ts : String)
      (l : Ledger) (tor : Torrent) (r : String),
      hasTagFrom c.protectedTags tor.tags = false →
      ¬(findOwner qm (pyLower tor.hash) = none ∧ c.rmOrphans = false) →
      strikeReason c tor.state (tTimeActive now tor.addedOn) tor.dlspeed = some r →
      (update_strike fU l ts (pyLower tor.hash) r).2 ≥ c.maxStrikes →
      ∃ eff : Effect,
        (processTorrent c qm now fU fG ts l tor).2
          = [Event.strike (pyLower tor.hash) r (update_strike fU l ts (pyLower tor.hash) r).2,
             Event.clear (pyLower tor.hash), Event.exec eff]
        ∧ ledgerFind (processTorrent c qm now fU fG ts l tor).1 (pyLower tor.hash) = none := by
  intro c qm now fU fG ts l tor r hprot hskip hreason hthr
  obtain ⟨eff, heff⟩ :=
    dispatchRemoval_singleton c (findOwner qm (pyLower tor.hash)) (pyLower tor.hash)
      (hasTagFrom c.privateTags tor.tags) r hskip
  refine ⟨eff, ?_, ?_⟩
  · simp [processTorrent, hprot, hskip, hreason, hthr, heff]
  · simp [processTorrent, hprot, hskip, hreason, hthr, ledgerFind_clear_strikes]

/-- Witness for C2: a stalled private orphan at the threshold in the concrete
    orphan-enabled configuration yields exactly the strike–clear–dispatch
    trace and an empty ledger entry. -/
theorem threshold_single_removal_after_clear_witness :
    ∃ eff : Effect,
      (processTorrent cfgOrphan qmEmpty 1200 false false "ts" [] torPrivate).2
        = [Event.strike (pyLower torPrivate.hash) "Stalled (No Seeds)"
             (update_strike false [] "ts" (pyLower torPrivate.hash) "Stalled (No Seeds)").2,
           Event.clear (pyLower torPrivate.hash), Event.exec eff]
      ∧ ledgerFind (processTorrent cfgOrphan qmEmpty 1200 false false "ts" [] torPrivate).1
          (pyLower torPrivate.hash) = none :=
  threshold_single_removal_after_clear cfgOrphan qmEmpty 1200 false false "ts" [] torPrivate
    "Stalled (No Seeds)" (by decide) (by decide)
    (by norm_num +decide [strikeReason, cfgOrphan, cfgLive, torPrivate, torStalled, tTimeActive])
    (by decide)

/- ===================== C7: protected tags are skipped entirely ===================== -/

lemma processTorrent_protected (c : CleanerCfg) (qm : QueueMaps) (now : Int) (fU fG : Bool)
    (ts : String) (l : Ledger) (tor : Torrent)
    (hprot : hasTagFrom c.protectedTags tor.tags = true) :
    processTorrent c qm now fU fG ts l tor = (l, []) := by
  simp [processTorrent, hprot]

lemma runCycle_insert_protected (c : CleanerCfg) (qm : QueueMaps) (now : Int) (fU fG : Bool)
    (ts : String) (tor : Torrent)
    (hprot : hasTagFrom c.protectedTags tor.tags = true) :
    ∀ (tors1 : List Torrent) (l : Ledger) (tors2 : List Torrent),
      runCycle c qm now fU fG ts l (tors1 ++ tor :: tors2)
        = runCycle c qm now fU fG ts l (tors1 ++ tors2) := by
  intro tors1
  induction tors1 with
  | nil =>
    intro l tors2
    simp [runCycle, processTorrent_protected c qm now fU fG ts l tor hprot]
  | cons t rest ih =>
    intro l tors2
    simp only [List.cons_append, runCycle, List.append_eq]
    rw [ih]

/-- C7: a transfer carrying any configured protected tag is skipped entirely by
    the cycle body — the ledger is untouched and no event of any kind (strike,
    clear, or collaborator action) is emitted — and removing such a transfer
    from a cycle's input list leaves the whole cycle's outcome unchanged,
    whatever its state, age or speed. -/
theorem protected_tag_never_touched :
    ∀ (c : CleanerCfg) (qm : QueueMaps) (now : Int) (fU fG : Bool) (ts : String)
      (l : Ledger) (tors1 tors2 : List Torrent) (tor : Torrent),
      hasTagFrom c.protectedTags tor.tags = true →
      processTorrent c qm now fU fG ts l tor = (l, [])
        ∧ runCycle c qm now fU fG ts l (tors1 ++ tor :: tors2)
            = runCycle c qm now fU fG ts l (tors1 ++ tors2) := by
  intro c qm now fU fG ts l tors1 tors2 tor hprot
  exact ⟨processTorrent_protected c qm now fU fG ts l tor hprot,
    runCycle_insert_protected c qm now fU fG ts tor hprot tors1 l tors2⟩

/-- Witness for C7: the concrete torrent whose tag string contains the
    protected tag `keep` is skipped with no ledger change and no events. -/
theorem protected_tag_never_touched_witness :
    processTorrent cfgTagSplit qmEmpty 1200 false false "ts" [] torTightTag = ([], [])
      ∧ runCycle cfgTagSplit qmEmpty 1200 false false "ts" [] ([] ++ torTightTag :: [])
          = runCycle cfgTagSplit qmEmpty 1200 false false "ts" [] ([] ++ []) :=
  protected_tag_never_touched cfgTagSplit qmEmpty 1200 false false "ts" [] [] [] torTightTag
    (by decide)

/- ===================== C5: storage failures fail open ===================== -/

lemma update_strike_fail_eq (l : Ledger) (ts h r : String) :
    update_strike true l ts h r = (l, 0) := rfl

/-- C5: a storage failure inside `update_strike` or `get_strikes` is swallowed
    and surfaces as the count 0, and a cycle body run under a failing
    `update_strike` (with the effective maximum at least 1, as the
    configuration layer guarantees) dispatches no executor action at all: the
    fail-open 0 can never satisfy the strike-threshold test. -/
theorem storage_failure_fail_open :
    (∀ (l : Ledger) (ts h r : String), (update_strike true l ts h r).2 = 0)
    ∧ (∀ (l : Ledger) (h : String), get_strikes true l h = 0)
    ∧ (∀ (c : CleanerCfg) (qm : QueueMaps) (now : Int) (fG : Bool) (ts : String)
        (l : Ledger) (tor : Torrent), 1 ≤ c.maxStrikes →
        ∀ e ∈ (processTorrent c qm now true fG ts l tor).2, eventIsExec e = false) := by
  refine ⟨fun l ts h r => rfl, fun l h => rfl, ?_⟩
  intro c qm now fG ts l tor hmax e he
  by_cases hprot : hasTagFrom c.protectedTags tor.tags = true
  · rw [processTorrent_protected c qm now true fG ts l tor hprot] at he
    simp at he
  · rw [Bool.not_eq_true] at hprot
    by_cases hskip : findOwner qm (pyLower tor.hash) = none ∧ c.rmOrphans = false
    · rw [show processTorrent c qm now true fG ts l tor = (l, []) from by
        simp [processTorrent, hprot, hskip]] at he
      simp at he
    · cases hsr : strikeReason c tor.state (tTimeActive now tor.addedOn) tor.dlspeed with
      | some r =>
        have hng : ¬ ((0 : Int) ≥ c.maxStrikes) := by omega
        rw [show processTorrent c qm now true fG ts l tor
            = (l, [Event.strike (pyLower tor.hash) r 0]) from by
          simp [processTorrent, hprot, hskip, hsr, update_strike_fail_eq, hng]] at he
        simp at he
        subst he
        rfl
      | none =>
        by_cases hgs : get_strikes fG l (pyLower tor.hash) > 0
        · rw [show processTorrent c qm now true fG ts l tor
              = (clear_strikes l (pyLower tor.hash), [Event.clear (pyLower tor.hash)]) from by
            simp [processTorrent, hprot, hskip, hsr, hgs]] at he
          simp at he
          subst he
          rfl
        · rw [show processTorrent c qm now true fG ts l tor = (l, []) from by
            simp [processTorrent, hprot, hskip, hsr, hgs]] at he
          simp at he

/-- Witness for C5: with a failing strike write, the concrete unhealthy orphan
    produces a 0 count and no executor event. -/
theorem storage_failure_fail_open_witness :
    (update_strike true [] "ts" "h" "r").2 = 0
      ∧ ∀ e ∈ (processTorrent cfgOrphan qmEmpty 1200 true false "ts" [] torPrivate).2,
          eventIsExec e = false :=
  ⟨storage_failure_fail_open.1 [] "ts" "h" "r",
   storage_failure_fail_open.2.2 cfgOrphan qmEmpty 1200 false "ts" [] torPrivate (by decide)⟩

/- ===================== C8: orphan removal respects private-tracker tags ===================== -/

/-- C8: in live mode, an orphan (owned by no manager) that reaches the maximum
    strike count with orphan removal enabled is handled by `remove_via_qbit`:
    when it carries a private-tracker tag the trace holds exactly one tag-add
    of the configured obsolete tag and no delete of any kind; when it does not,
    the trace holds exactly one download-client delete together with its
    files. -/
theorem orphan_private_tagged_not_deleted :
    ∀ (c : CleanerCfg) (qm : QueueMaps) (now : Int) (fG : Bool) (ts : String)
      (l : Ledger) (tor : Torrent) (r : String),
      c.dryRun = false →
      hasTagFrom c.protectedTags tor.tags = false →
      findOwner qm (pyLower tor.hash) = none →
      c.rmOrphans = true →
      strikeReason c tor.state (tTimeActive now tor.addedOn) tor.dlspeed = some r →
      (update_strike false l ts (pyLower tor.hash) r).2 ≥ c.maxStrikes →
      (hasTagFrom c.privateTags tor.tags = true →
        (processTorrent c qm now false fG ts l tor).2
          = [Event.strike (pyLower tor.hash) r (update_strike false l ts (pyLower tor.hash) r).2,
             Event.clear (pyLower tor.hash),
             Event.exec (Effect.addTag c.obsoleteTag (pyLower tor.hash))])
      ∧ (hasTagFrom c.privateTags tor.tags = false →
        (processTorrent c qm now false fG ts l tor).2
          = [Event.strike (pyLower tor.hash) r (update_strike false l ts (pyLower tor.hash) r).2,
             Event.clear (pyLower tor.hash),
             Event.exec (Effect.deleteTransfer (pyLower tor.hash) true)]) := by
  intro c qm now fG ts l tor r hdry hprot hfo horph hsr hthr
  constructor
  · intro hpriv
    simp [processTorrent, hprot, hfo, horph, hsr, hthr, dispatchRemoval,
      remove_via_qbit, hpriv, hdry]
  · intro hpriv
    simp [processTorrent, hprot, hfo, horph, hsr, hthr, dispatchRemoval,
      remove_via_qbit, hpriv, hdry]

/-- Witness for C8 (private branch): the concrete stalled private orphan at the
    threshold receives exactly one obsolete-tag add and no delete. -/
theorem orphan_private_tagged_not_deleted_witness :
    (processTorrent cfgOrphan qmEmpty 1200 false false "ts" [] torPrivate).2
      = [Event.strike (pyLower torPrivate.hash) "Stalled (No Seeds)"
           (update_strike false [] "ts" (pyLower torPrivate.hash) "Stalled (No Seeds)").2,
         Event.clear (pyLower torPrivate.hash),
         Event.exec (Effect.addTag cfgOrphan.obsoleteTag (pyLower torPrivate.hash))] :=
  (orphan_private_tagged_not_deleted cfgOrphan qmEmpty 1200 false "ts" [] torPrivate
    "Stalled (No Seeds)" rfl (by decide) (by decide) rfl
    (by norm_num +decide [strikeReason, cfgOrphan, cfgLive, torPrivate, torStalled, tTimeActive])
    (by decide)).1 (by decide)

/- ===================== C6: dry-run is a pure frame over bookkeeping ===================== -/

lemma strikeReason_setDryRun (c : CleanerCfg) (b : Bool) (st : String) (ta : ℚ) (sp : Int) :
    strikeReason (setDryRun c b) st ta sp = strikeReason c st ta sp := rfl

lemma setDryRun_protectedTags (c : CleanerCfg) (b : Bool) :
    (setDryRun c b).protectedTags = c.protectedTags := rfl

lemma setDryRun_privateTags (c : CleanerCfg) (b : Bool) :
    (setDryRun c b).privateTags = c.privateTags := rfl

lemma setDryRun_rmOrphans (c : CleanerCfg) (b : Bool) :
    (setDryRun c b).rmOrphans = c.rmOrphans := rfl

lemma setDryRun_maxStrikes (c : CleanerCfg) (b : Bool) :
    (setDryRun c b).maxStrikes = c.maxStrikes := rfl

lemma setDryRun_dryRun (c : CleanerCfg) (b : Bool) :
    (setDryRun c b).dryRun = b := rfl

lemma ledgerEvents_strike_clear_append (h r : String) (n : Int) (effs : List Effect) :
    ledgerEvents (Event.strike h r n :: Event.clear h :: effs.map Event.exec)
      = [Event.strike h r n, Event.clear h] := by
  simp [ledgerEvents, eventIsExec]

lemma processTorrent_dryRun (c : CleanerCfg) (qm : QueueMaps) (now : Int) (fU fG : Bool)
    (ts : String) (l : Ledger) (tor : Torrent) (b : Bool) :
    (processTorrent (setDryRun c b) qm now fU fG ts l tor).1
        = (processTorrent c qm now fU fG ts l tor).1
      ∧ ledgerEvents (processTorrent (setDryRun c b) qm now fU fG ts l tor).2
        = ledgerEvents (processTorrent c qm now fU fG ts l tor).2 := by
  by_cases hprot : hasTagFrom c.protectedTags tor.tags = true
  · rw [processTorrent_protected (setDryRun c b) qm now fU fG ts l tor hprot,
      processTorrent_protected c qm now fU fG ts l tor hprot]
    exact ⟨rfl, rfl⟩
  · rw [Bool.not_eq_true] at hprot
    by_cases hskip : findOwner qm (pyLower tor.hash) = none ∧ c.rmOrphans = false
    · rw [show processTorrent (setDryRun c b) qm now fU fG ts l tor = (l, []) from by
        simp [processTorrent, setDryRun_protectedTags, setDryRun_rmOrphans, hprot, hskip],
        show processTorrent c qm now fU fG ts l tor = (l, []) from by
        simp [processTorrent, hprot, hskip]]
      exact ⟨rfl, rfl⟩
    · cases hsr : strikeReason c tor.state (tTimeActive now tor.addedOn) tor.dlspeed with
      | some r =>
        by_cases hthr : (update_strike fU l ts (pyLower tor.hash) r).2 ≥ c.maxStrikes
        · constructor
          · simp [processTorrent, setDryRun_protectedTags, setDryRun_privateTags,
              setDryRun_rmOrphans, setDryRun_maxStrikes, strikeReason_setDryRun,
              hprot, hskip, hsr, hthr]
          · simp [processTorrent, setDryRun_protectedTags, setDryRun_privateTags,
              setDryRun_rmOrphans, setDryRun_maxStrikes, strikeReason_setDryRun,
              hprot, hskip, hsr, hthr, ledgerEvents_strike_clear_append]
        · constructor
          · simp [processTorrent, setDryRun_protectedTags, setDryRun_privateTags,
              setDryRun_rmOrphans, setDryRun_maxStrikes, strikeReason_setDryRun,
              hprot, hskip, hsr, hthr]
          · simp [processTorrent, setDryRun_protectedTags, setDryRun_privateTags,
              setDryRun_rmOrphans, setDryRun_maxStrikes, strikeReason_setDryRun,
              hprot, hskip, hsr, hthr]
      | none =>
        by_cases hgs : get_strikes fG l (pyLower tor.hash) > 0
        · constructor
          · simp [processTorrent, setDryRun_protectedTags, setDryRun_privateTags,
              setDryRun_rmOrphans, setDryRun_maxStrikes, strikeReason_setDryRun,
              hprot, hskip, hsr, hgs]
          · simp [processTorrent, setDryRun_protectedTags, setDryRun_privateTags,
              setDryRun_rmOrphans, setDryRun_maxStrikes, strikeReason_setDryRun,
              hprot, hskip, hsr, hgs]
        · constructor
          · simp [processTorrent, setDryRun_protectedTags, setDryRun_privateTags,
              setDryRun_rmOrphans, setDryRun_maxStrikes, strikeReason_setDryRun,
              hprot, hskip, hsr, hgs]
          · simp [processTorrent, setDryRun_protectedTags, setDryRun_privateTags,
              setDryRun_rmOrphans, setDryRun_maxStrikes, strikeReason_setDryRun,
              hprot, hskip, hsr, hgs]

lemma dispatchRemoval_dry_not_mutating (c : CleanerCfg) (oi : Option (Owner × Int))
    (h : String) (ip : Bool) (r : String) (hdry : c.dryRun = true) :
    ∀ eff ∈ dispatchRemoval c oi h ip r, eff.isMutating = false := by
  intro eff heff
  cases oi with
  | some pr =>
    obtain ⟨app, qid⟩ := pr
    simp [dispatchRemoval, remove_via_arr, hdry] at heff
    subst heff
    rfl
  | none =>
    cases horph : c.rmOrphans with
    | false => simp [dispatchRemoval, horph] at heff
    | true =>
      by_cases hp : ip = true
      · simp [dispatchRemoval, remove_via_qbit, hdry, horph, hp] at heff
        subst heff
        rfl
      · rw [Bool.not_eq_true] at hp
        simp [dispatchRemoval, remove_via_qbit, hdry, horph, hp] at heff
        subst heff
        rfl

lemma processTorrent_dry_no_mutation (c : CleanerCfg) (qm : QueueMaps) (now : Int)
    (fU fG : Bool) (ts : String) (l : Ledger) (tor : Torrent) (hdry : c.dryRun = true) :
    ∀ e ∈ (processTorrent c qm now fU fG ts l tor).2, eventMutating e = false := by
  intro e he
  by_cases hprot : hasTagFrom c.protectedTags tor.tags = true
  · rw [processTorrent_protected c qm now fU fG ts l tor hprot] at he
    simp at he
  · rw [Bool.not_eq_true] at hprot
    by_cases hskip : findOwner qm (pyLower tor.hash) = none ∧ c.rmOrphans = false
    · rw [show processTorrent c qm now fU fG ts l tor = (l, []) from by
        simp [processTorrent, hprot, hskip]] at he
      simp at he
    · cases hsr : strikeReason c tor.state (tTimeActive now tor.addedOn) tor.dlspeed with
      | some r =>
        by_cases hthr : (update_strike fU l ts (pyLower tor.hash) r).2 ≥ c.maxStrikes
        · rw [show processTorrent c qm now fU fG ts l tor
              = (clear_strikes (update_strike fU l ts (pyLower tor.hash) r).1 (pyLower tor.hash),
                 [Event.strike (pyLower tor.hash) r (update_strike fU l ts (pyLower tor.hash) r).2,
                  Event.clear (pyLower tor.hash)]
                   ++ (dispatchRemoval c (findOwner qm (pyLower tor.hash)) (pyLower tor.hash)
                        (hasTagFrom c.privateTags tor.tags) r).map Event.exec) from by
            simp [processTorrent, hprot, hskip, hsr, hthr]] at he
          simp only [List.mem_append, List.mem_cons, List.not_mem_nil, or_false,
            List.mem_map] at he
          rcases he with (he | he) | ⟨eff, heff, he⟩
          · subst he; rfl
          · subst he; rfl
          · subst he
            simpa [eventMutating] using
              dispatchRemoval_dry_not_mutating c (findOwner qm (pyLower tor.hash))
                (pyLower tor.hash) (hasTagFrom c.privateTags tor.tags) r hdry eff heff
        · rw [show processTorrent c qm now fU fG ts l tor
              = ((update_strike fU l ts (pyLower tor.hash) r).1,
                 [Event.strike (pyLower tor.hash) r
                    (update_strike fU l ts (pyLower tor.hash) r).2]) from by
            simp [processTorrent, hprot, hskip, hsr, hthr]] at he
          simp at he
          subst he
          rfl
      | none =>
        by_cases hgs : get_strikes fG l (pyLower tor.hash) > 0
        · rw [show processTorrent c qm now fU fG ts l tor
              = (clear_strikes l (pyLower tor.hash), [Event.clear (pyLower tor.hash)]) from by
            simp [processTorrent, hprot, hskip, hsr, hgs]] at he
          simp at he
          subst he
          rfl
        · rw [show processTorrent c qm now fU fG ts l tor = (l, []) from by
            simp [processTorrent, hprot, hskip, hsr, hgs]] at he
          simp at he

/-- C6: over a whole cycle, the dry-run flag changes nothing in the strike and
    ledger bookkeeping — the resulting ledger and the subsequence of ledger
    events (strikes, threshold clears, recovery clears) coincide with the live
    run on the same inputs — while the dry run emits zero mutating collaborator
    calls (no queue-entry delete, no transfer delete, no tag add). -/
theorem dry_run_no_mutation_same_bookkeeping :
    ∀ (c : CleanerCfg) (qm : QueueMaps) (now : Int) (fU fG : Bool) (ts : String)
      (l : Ledger) (tors : List Torrent),
      (runCycle (setDryRun c true) qm now fU fG ts l tors).1
          = (runCycle (setDryRun c false) qm now fU fG ts l tors).1
      ∧ ledgerEvents (runCycle (setDryRun c true) qm now fU fG ts l tors).2
          = ledgerEvents (runCycle (setDryRun c false) qm now fU fG ts l tors).2
      ∧ ∀ e ∈ (runCycle (setDryRun c true) qm now fU fG ts l tors).2,
          eventMutating e = false := by
  intro c qm now fU fG ts l tors
  induction tors generalizing l with
  | nil =>
    refine ⟨rfl, rfl, ?_⟩
    intro e he
    simp [runCycle] at he
  | cons tor rest ih =>
    have ht := processTorrent_dryRun c qm now fU fG ts l tor true
    have hf := processTorrent_dryRun c qm now fU fG ts l tor false
    have hl : (processTorrent (setDryRun c true) qm now fU fG ts l tor).1
        = (processTorrent (setDryRun c false) qm now fU fG ts l tor).1 := by
      rw [ht.1, hf.1]
    obtain ⟨ihl, ihe, ihm⟩ := ih ((processTorrent (setDryRun c false) qm now fU fG ts l tor).1)
    refine ⟨?_, ?_, ?_⟩
    · simp only [runCycle]
      rw [hl]
      exact ihl
    · simp only [runCycle, ledgerEvents, List.filter_append]
      rw [show (List.filter (fun e => !eventIsExec e)
            (processTorrent (setDryRun c true) qm now fU fG ts l tor).2)
          = (List.filter (fun e => !eventIsExec e)
            (processTorrent (setDryRun c false) qm now fU fG ts l tor).2) from by
        have h1 := ht.2
        have h2 := hf.2
        simp only [ledgerEvents] at h1 h2
        rw [h1, h2]]
      rw [hl]
      have := ihe
      simp only [ledgerEvents] at this
      rw [this]
    · intro e he
      simp only [runCycle, List.mem_append] at he
      rcases he with he | he
      · exact processTorrent_dry_no_mutation (setDryRun c true) qm now fU fG ts l tor rfl e he
      · rw [hl] at he
        exact ihm e he

/- ===================== C1: owned-removal endpoint selection ===================== -/

/-- C1 (evaluation at the failing input): a torrent owned only by Lidarr that
    reaches the strike threshold in live mode is dispatched as a
    delete-queue-entry carrying app name "Lidarr" and the Lidarr v1 API path,
    but aimed at Radarr's URL with Radarr's API key — the
    Sonarr-else-Radarr endpoint selection of src/cleaner.py lines 161-162
    never selects Lidarr's own endpoint — while no direct download-client
    delete is emitted. -/
theorem lidarr_owner_removal_misdirected :
    (processTorrent cfgLive qmLidarrOnly 1200 false false "ts" [] torStalled).2
      = [Event.strike "aaaa" "Stalled (No Seeds)" 1, Event.clear "aaaa",
         Event.exec (Effect.deleteQueueEntry "Lidarr" "http://radarr:7878" "radarr-key" 7
           true true "v1")]
    ∧ "http://radarr:7878" ≠ cfgLive.lidarrUrl ∧ "radarr-key" ≠ cfgLive.lidarrKey := by
  refine ⟨?_, by decide, by decide⟩
  norm_num +decide [processTorrent, cfgLive, qmLidarrOnly, torStalled, pyLower, pyTags,
    splitComma, splitCommaAux, hasTagFrom, findOwner, qlookup, strikeReason, tTimeActive,
    update_strike, ledgerFind, clear_strikes, dispatchRemoval, remove_via_arr, Owner.appName]

/- ===================== C10: comma-splitting with no trimming ===================== -/

/-- C10: tag membership for both the protected and the private check is exact
    string equality against the raw tag string split on bare commas with no
    whitespace trimming: `"movies, keep"` splits into `"movies"` and `" keep"`,
    so the configured tag `"keep"` matches only the unspaced variant; the cycle
    body therefore strikes the torrent whose protected tag is preceded by a
    space and skips the torrent whose tag matches character-for-character. -/
theorem tag_membership_no_trimming :
    pyTags "movies, keep" = ["movies", " keep"]
    ∧ hasTagFrom ["keep"] "movies, keep" = false
    ∧ hasTagFrom ["keep"] "movies,keep" = true
    ∧ processTorrent cfgTagSplit qmEmpty 1200 false false "ts" [] torSpacedTag
        = ([("cccc", ⟨1, "ts", "Stalled (No Seeds)"⟩)],
           [Event.strike "cccc" "Stalled (No Seeds)" 1])
    ∧ processTorrent cfgTagSplit qmEmpty 1200 false false "ts" [] torTightTag = ([], []) := by
  refine ⟨by decide, by decide, by decide, ?_, ?_⟩
  · norm_num +decide [processTorrent, cfgTagSplit, cfgLive, qmEmpty, torSpacedTag, torStalled,
      pyLower, pyTags, splitComma, splitCommaAux, hasTagFrom, findOwner, qlookup, strikeReason,
      tTimeActive, update_strike, ledgerFind]
  · norm_num +decide [processTorrent, cfgTagSplit, cfgLive, torTightTag, torSpacedTag,
      torStalled, pyLower, pyTags, splitComma, splitCommaAux, hasTagFrom]

/-- Witness for C6 at a concrete cycle: the dry and live runs over the stalled
    private orphan leave identical ledgers and identical ledger-event traces. -/
theorem dry_run_no_mutation_same_bookkeeping_witness :
    (runCycle (setDryRun cfgOrphan true) qmEmpty 1200 false false "ts" [] [torPrivate]).1
        = (runCycle (setDryRun cfgOrphan false) qmEmpty 1200 false false "ts" [] [torPrivate]).1
      ∧ ledgerEvents (runCycle (setDryRun cfgOrphan true) qmEmpty 1200 false false "ts" []
            [torPrivate]).2
        = ledgerEvents (runCycle (setDryRun cfgOrphan false) qmEmpty 1200 false false "ts" []
            [torPrivate]).2 :=
  ⟨(dry_run_no_mutation_same_bookkeeping cfgOrphan qmEmpty 1200 false false "ts" []
      [torPrivate]).1,
   (dry_run_no_mutation_same_bookkeeping cfgOrphan qmEmpty 1200 false false "ts" []
      [torPrivate]).2.1⟩
